import Mathlib

/-!
Shallow embedding of the bar aggregation core of
src/nautilus_core/data/src/aggregation.rs.

Modelling conventions:
* Machine integers (u64/usize raw sizes, counts, UnixNanos) are Nat; no claim
  in scope exercises wraparound, and all concrete evaluations stay far below
  2^64.
* Price carries only its backing raw integer: ordering and equality on prices
  are the raw-domain ones, and no claim depends on price precision.
* A Rust panic (an unwrap of a None price inside BarBuilder::update or
  BarBuilder::build) is modelled by an Option result, none meaning the call
  panics.
* The handler callback is modelled by returning the list of bars emitted by a
  call, in emission order.
* The while loop of VolumeBarAggregator::update is defined with an explicit
  fuel budget of size.raw + 1 iterations; the termination theorem proves this
  budget is never exhausted from a reachable state.
-/

/-- The global fixed-point scale factor (FIXED_SCALAR = 1e9 in
nautilus_model::types::fixed).  The source computes the raw step as
`(step as f64 * FIXED_SCALAR) as u64`; for the integer steps in scope this
float round trip is exact, so it is modelled as `step * FIXED_SCALAR`. -/
def FIXED_SCALAR : Nat := 1000000000

/-- `Price`: only the backing raw fixed-point integer is modelled; the
source's comparisons on prices of equal precision coincide with raw-integer
comparisons. -/
structure Price where
  raw : Int
deriving DecidableEq

/-- `Quantity`: raw u64 backing (as Nat) plus explicit decimal precision. -/
structure Quantity where
  raw : Nat
  precision : Nat
deriving DecidableEq

/-- `Quantity::zero(precision)`: the additive identity at a precision. -/
def Quantity.zero (precision : Nat) : Quantity :=
  { raw := 0, precision := precision }

/-- `Quantity` addition: adds the raw values and keeps the left operand's
precision (the external numeric contract: addition preserves precision). -/
def Quantity.add (q r : Quantity) : Quantity :=
  { raw := q.raw + r.raw, precision := q.precision }

/-- `Bar` (aggregation.rs builds these via `Bar::new`): OHLCV plus the two
timestamps.  The opaque `bar_type` key is carried nowhere in the claims and is
omitted. -/
structure Bar where
  open_ : Price
  high : Price
  low : Price
  close : Price
  volume : Quantity
  tsEvent : Nat
  tsInit : Nat
deriving DecidableEq

/-- `BarBuilder` state (aggregation.rs lines 56-69).  Field `open_` models the
source field `open` (a Lean keyword); `hasPartialBar` models the source flag
named partial_set. -/
structure BarBuilder where
  sizePrecision : Nat
  initialized : Bool
  tsLast : Nat
  count : Nat
  hasPartialBar : Bool
  lastClose : Option Price
  open_ : Option Price
  high : Option Price
  low : Option Price
  close : Option Price
  volume : Quantity
deriving DecidableEq

/-- `BarBuilder::new` (lines 79-109): the construction-time checks on the
instrument id and aggregation source are out of scope; only the initial state
is modelled, parameterized by the instrument's size precision. -/
def BarBuilder.new (sizePrecision : Nat) : BarBuilder :=
  { sizePrecision := sizePrecision
    initialized := false
    tsLast := 0
    count := 0
    hasPartialBar := false
    lastClose := none
    open_ := none
    high := none
    low := none
    close := none
    volume := Quantity.zero sizePrecision }

/-- The source method set_partial (lines 112-139): seeds the in-progress bar
from a partially completed bar; a no-op when the flag is already set. -/
def BarBuilder.setPartialBar (b : BarBuilder) (partialBar : Bar) : BarBuilder :=
  if b.hasPartialBar then b
  else
    { b with
      open_ := some partialBar.open_
      high :=
        match b.high with
        | none => some partialBar.high
        | some h => if partialBar.high.raw > h.raw then some partialBar.high else some h
      low :=
        match b.low with
        | none => some partialBar.low
        | some l => if partialBar.low.raw < l.raw then some partialBar.low else some l
      close :=
        match b.close with
        | none => some partialBar.close
        | some c => some c
      volume := partialBar.volume
      tsLast := if b.tsLast = 0 then partialBar.tsInit else b.tsLast
      hasPartialBar := true
      initialized := true }

/-- `BarBuilder::update` (lines 142-165).  Late updates (ts_event < ts_last)
return the state unchanged.  Otherwise: first accepted update seeds O/H/L and
marks initialized; later ones raise high / lower low via the source's unwraps
(none on a state with `open` set but high or low unset, where the source
panics); always close := price, volume += size, count += 1, ts_last :=
ts_event. -/
def BarBuilder.update (b : BarBuilder) (price : Price) (size : Quantity)
    (tsEvent : Nat) : Option BarBuilder :=
  if tsEvent < b.tsLast then some b
  else
    match b.open_ with
    | none =>
      some { b with
        open_ := some price
        high := some price
        low := some price
        initialized := true
        close := some price
        volume := b.volume.add size
        count := b.count + 1
        tsLast := tsEvent }
    | some _ =>
      match b.high, b.low with
      | some h, some l =>
        some { b with
          high := if price.raw > h.raw then some price else some h
          low := if price.raw < l.raw then some price else some l
          close := some price
          volume := b.volume.add size
          count := b.count + 1
          tsLast := tsEvent }
      | _, _ => none

/-- `BarBuilder::reset` (lines 170-176): clears open/high/low, zeroes the
volume at the builder's size precision and zeroes the count.  Note the source
does NOT clear `close` here. -/
def BarBuilder.reset (b : BarBuilder) : BarBuilder :=
  { b with
    open_ := none
    high := none
    low := none
    volume := Quantity.zero b.sizePrecision
    count := 0 }

/-- `BarBuilder::build` (lines 184-207): when `open` is unset, seed all four
prices from last_close; then unwrap all four (none models the panic when any
is still unset), emit the bar, store last_close := close and reset. -/
def BarBuilder.build (b : BarBuilder) (tsEvent tsInit : Nat) :
    Option (Bar × BarBuilder) :=
  let b1 :=
    if b.open_.isNone then
      { b with
        open_ := b.lastClose
        high := b.lastClose
        low := b.lastClose
        close := b.lastClose }
    else b
  match b1.open_, b1.high, b1.low, b1.close with
  | some o, some hi, some lo, some c =>
    some ({ open_ := o, high := hi, low := lo, close := c, volume := b1.volume,
            tsEvent := tsEvent, tsInit := tsInit },
          BarBuilder.reset { b1 with lastClose := b1.close })
  | _, _, _, _ => none

/-- `BarBuilder::build_now` (lines 179-181): build dated ts_last twice. -/
def BarBuilder.buildNow (b : BarBuilder) : Option (Bar × BarBuilder) :=
  b.build b.tsLast b.tsLast

/-- `TickBarAggregator::update` (lines 296-302): apply the update to the
builder, then if count has reached the step, build now and emit.  The
aggregator core's state is its builder; emitted bars are returned. -/
def TickBarAggregator.update (step : Nat) (b : BarBuilder) (price : Price)
    (size : Quantity) (tsEvent : Nat) : Option (BarBuilder × List Bar) :=
  match b.update price size tsEvent with
  | none => none
  | some b1 =>
    if step ≤ b1.count then
      match b1.buildNow with
      | none => none
      | some (bar, b2) => some (b2, [bar])
    else some (b1, [])

/-- Runs a TickBarAggregator over a finite stream of (price, size, ts_event)
updates, returning the final builder, all emitted bars in order, and the
number of accepted updates (those with ts_event at or after the builder's
ts_last when processed). -/
def TickBarAggregator.run (step : Nat) :
    BarBuilder → List (Price × Quantity × Nat) → Option (BarBuilder × List Bar × Nat)
  | b, [] => some (b, [], 0)
  | b, (price, size, tsEvent) :: rest =>
    let acc : Nat := if b.tsLast ≤ tsEvent then 1 else 0
    match TickBarAggregator.update step b price size tsEvent with
    | none => none
    | some (b1, bars1) =>
      match TickBarAggregator.run step b1 rest with
      | none => none
      | some (b2, bars2, n) => some (b2, bars1 ++ bars2, acc + n)

/-- The while loop of `VolumeBarAggregator::update` (lines 341-360), with an
explicit fuel budget (none also when fuel runs out).  Faithful to the source:
in the completing branch the slice raw_size_diff is computed, but the update
applied to the builder is the FULL remaining raw_size_update; only the
decrement of the residual uses raw_size_diff. -/
def VolumeBarAggregator.updateLoop (rawStep : Nat) (price : Price)
    (sizePrecision : Nat) (tsEvent : Nat) :
    Nat → Nat → BarBuilder → List Bar → Option (BarBuilder × List Bar)
  | 0, _, _, _ => none
  | fuel + 1, rawSizeUpdate, b, emitted =>
    if rawSizeUpdate = 0 then some (b, emitted)
    else if b.volume.raw + rawSizeUpdate < rawStep then
      match b.update price { raw := rawSizeUpdate, precision := sizePrecision } tsEvent with
      | none => none
      | some b1 => some (b1, emitted)
    else
      let rawSizeDiff := rawStep - b.volume.raw
      match b.update price { raw := rawSizeUpdate, precision := sizePrecision } tsEvent with
      | none => none
      | some b1 =>
        match b1.buildNow with
        | none => none
        | some (bar, b2) =>
          VolumeBarAggregator.updateLoop rawStep price sizePrecision tsEvent fuel
            (rawSizeUpdate - rawSizeDiff) b2 (emitted ++ [bar])

/-- `VolumeBarAggregator::update` (lines 336-361): raw_step = step scaled by
FIXED_SCALAR; the loop runs on the raw residual starting at size.raw.  The
fuel size.raw + 1 is an upper bound on the iteration count, proved sufficient
by the termination theorem. -/
def VolumeBarAggregator.update (step : Nat) (b : BarBuilder) (price : Price)
    (size : Quantity) (tsEvent : Nat) : Option (BarBuilder × List Bar) :=
  let rawStep := step * FIXED_SCALAR
  VolumeBarAggregator.updateLoop rawStep price size.precision tsEvent
    (size.raw + 1) size.raw b []

/-- `TimeBarAggregator` state (lines 438-455) restricted to the fields the
timer callback reads and writes; the clock is passed as an explicit value
where the source queries it.  The builder stands for the core's builder. -/
structure TimeBarAggregator where
  builder : BarBuilder
  buildWithNoUpdates : Bool
  timestampOnClose : Bool
  isLeftOpen : Bool
  buildOnNextTick : Bool
  storedOpenNs : Nat
  storedCloseNs : Nat
  nextCloseNs : Nat
deriving DecidableEq

/-- `TimeBarAggregator::build_bar` (lines 523-548), the timer callback.
`eventTs` is event.ts_event; `clockNextTimeNs` is the value the source reads
from clock.next_time_ns(timer_name) after a successful emission.  The
returned option of a bar is the emission made through the handler (none when
no bar is emitted); the outer option models the panic inside build. -/
def TimeBarAggregator.buildBar (a : TimeBarAggregator) (eventTs : Nat)
    (clockNextTimeNs : Nat) : Option (TimeBarAggregator × Option Bar) :=
  if a.builder.initialized = false then
    some ({ a with buildOnNextTick := true, storedCloseNs := a.nextCloseNs }, none)
  else if a.buildWithNoUpdates = false ∧ a.builder.count = 0 then
    some (a, none)
  else
    let tsInit := eventTs
    let tsEvent :=
      if a.isLeftOpen then
        if a.timestampOnClose then eventTs else a.storedOpenNs
      else a.storedOpenNs
    match a.builder.build tsEvent tsInit with
    | none => none
    | some (bar, b1) =>
      some ({ a with
                builder := b1
                storedOpenNs := eventTs
                nextCloseNs := clockNextTimeNs },
            some bar)

/-- Price-field coherence of a builder state: whenever `open` is defined so
are high, low and close.  Every reachable state satisfies this (the source
unwraps these fields under a SAFETY comment); theorems about states where the
source would otherwise panic assume it. -/
def BarBuilder.wf (b : BarBuilder) : Prop :=
  b.open_.isSome → (b.high.isSome ∧ b.low.isSome ∧ b.close.isSome)

instance (b : BarBuilder) : Decidable b.wf := by
  unfold BarBuilder.wf
  infer_instance

theorem BarBuilder.wf_of_open_none (b : BarBuilder) (h : b.open_ = none) : b.wf := by
  intro hs
  rw [h] at hs
  simp at hs

theorem BarBuilder.new_wf (sizePrecision : Nat) : (BarBuilder.new sizePrecision).wf :=
  BarBuilder.wf_of_open_none _ rfl

theorem BarBuilder.update_dropped (b : BarBuilder) (price : Price) (size : Quantity)
    (tsEvent : Nat) (h : tsEvent < b.tsLast) :
    b.update price size tsEvent = some b := by
  simp [BarBuilder.update, h]

theorem BarBuilder.update_accepted (b : BarBuilder) (price : Price) (size : Quantity)
    (tsEvent : Nat) (h : ¬ tsEvent < b.tsLast) (hwf : b.wf) :
    ∃ b1, b.update price size tsEvent = some b1 ∧
      b1.open_.isSome ∧ b1.high.isSome ∧ b1.low.isSome ∧ b1.close = some price ∧
      b1.count = b.count + 1 ∧ b1.tsLast = tsEvent ∧
      b1.volume = b.volume.add size ∧ b1.sizePrecision = b.sizePrecision ∧
      b1.lastClose = b.lastClose := by
  unfold BarBuilder.update
  rw [if_neg h]
  cases hopen : b.open_ with
  | none =>
    exact ⟨_, rfl, by simp, by simp, by simp, rfl, rfl, rfl, rfl, rfl, rfl⟩
  | some p =>
    obtain ⟨hh, hl, _⟩ := hwf (by rw [hopen]; rfl)
    cases hhv : b.high with
    | none => rw [hhv] at hh; simp at hh
    | some hv =>
      cases hlv : b.low with
      | none => rw [hlv] at hl; simp at hl
      | some lv =>
        refine ⟨_, rfl, ?_, ?_, ?_, rfl, rfl, rfl, rfl, rfl, rfl⟩
        · simp
        · show (if price.raw > hv.raw then some price else some hv).isSome = true
          split <;> simp
        · show (if price.raw < lv.raw then some price else some lv).isSome = true
          split <;> simp

theorem BarBuilder.build_some (b : BarBuilder) (tsEvent tsInit : Nat)
    (hsafe : b.open_.isSome ∨ b.lastClose.isSome) (hwf : b.wf) :
    ∃ bar b2, b.build tsEvent tsInit = some (bar, b2) ∧
      b2.open_ = none ∧ b2.high = none ∧ b2.low = none ∧
      b2.close = some bar.close ∧ b2.lastClose = some bar.close ∧
      b2.volume = Quantity.zero b.sizePrecision ∧ b2.count = 0 ∧
      b2.tsLast = b.tsLast ∧ b2.initialized = b.initialized ∧
      b2.sizePrecision = b.sizePrecision ∧
      bar.tsEvent = tsEvent ∧ bar.tsInit = tsInit ∧ bar.volume = b.volume := by
  obtain ⟨sp, init, tsl, cnt, hpb, lc, op, hi, lo, cl, vol⟩ := b
  unfold BarBuilder.build
  cases op with
  | none =>
    rcases hsafe with hcontra | hlc
    · simp at hcontra
    · cases lc with
      | none => simp at hlc
      | some c =>
        exact ⟨_, _, rfl, by simp [BarBuilder.reset]⟩
  | some o =>
    obtain ⟨hh, hl, hc⟩ := hwf (by rfl)
    cases hi with
    | none => simp at hh
    | some hv =>
      cases lo with
      | none => simp at hl
      | some lv =>
        cases cl with
        | none => simp at hc
        | some cv =>
          exact ⟨_, _, rfl, by simp [BarBuilder.reset]⟩

/-- Claim C4: an update with ts_event < ts_last leaves the builder entirely
unchanged (count and ts_last included); consequently ts_last never decreases
across update calls, and count changes only on updates with
ts_event ≥ ts_last. -/
theorem barBuilder_late_update_dropped (b : BarBuilder) (price : Price)
    (size : Quantity) (tsEvent : Nat) :
    (tsEvent < b.tsLast → b.update price size tsEvent = some b) ∧
    (∀ b1, b.update price size tsEvent = some b1 →
      b.tsLast ≤ b1.tsLast ∧ (b1.count ≠ b.count → b.tsLast ≤ tsEvent)) := by
  obtain ⟨sp, init, tsl, cnt, hpb, lc, op, hi, lo, cl, vol⟩ := b
  constructor
  · intro h
    simp [BarBuilder.update, h]
  · intro b1 hupd
    by_cases h : tsEvent < tsl
    · simp only [BarBuilder.update] at hupd
      rw [if_pos h] at hupd
      cases hupd
      exact ⟨Nat.le_refl _, fun hc => absurd rfl hc⟩
    · have hle : tsl ≤ tsEvent := Nat.le_of_not_lt h
      simp only [BarBuilder.update] at hupd
      rw [if_neg h] at hupd
      cases op with
      | none =>
        cases hupd
        exact ⟨hle, fun _ => hle⟩
      | some p =>
        cases hi with
        | none => simp at hupd
        | some hv =>
          cases lo with
          | none => simp at hupd
          | some lv =>
            cases hupd
            exact ⟨hle, fun _ => hle⟩

/-- Concrete state for the claim C4 witness: a fresh builder whose ts_last
has advanced to 5. -/
def sampleLate : BarBuilder :=
  { BarBuilder.new 0 with tsLast := 5 }

/-- Witness for claim C4: a concrete late update (ts_event 3 < ts_last 5) is
dropped. -/
theorem barBuilder_late_update_dropped_witness :
    sampleLate.update { raw := 1 } { raw := 1, precision := 0 } 3
      = some sampleLate :=
  (barBuilder_late_update_dropped sampleLate { raw := 1 }
    { raw := 1, precision := 0 } 3).1 (by decide)

/-- Claim C5: set_partial is idempotent within a builder lifetime — applying
it a second time, with any partial bar, is a no-op. -/
theorem setPartialBar_idempotent (b : BarBuilder) (A B : Bar) :
    (b.setPartialBar A).setPartialBar B = b.setPartialBar A := by
  unfold BarBuilder.setPartialBar
  by_cases h : b.hasPartialBar = true <;> simp [h]

/-- Claim C10: a zero-size update leaves a VolumeBarAggregator entirely
unchanged and emits no bar (the split loop is never entered), even when
ts_event exceeds ts_last; by contrast a direct BarBuilder::update with zero
size and ts_event ≥ ts_last still increments count (and hence initializes a
fresh builder). -/
theorem volumeAggregator_zero_size_noop (step : Nat) (b : BarBuilder)
    (price : Price) (sizePrecision tsEvent : Nat) :
    VolumeBarAggregator.update step b price
      { raw := 0, precision := sizePrecision } tsEvent = some (b, []) ∧
    (∀ b1, b.tsLast ≤ tsEvent →
      b.update price { raw := 0, precision := sizePrecision } tsEvent = some b1 →
      b1.count = b.count + 1) := by
  obtain ⟨sp, init, tsl, cnt, hpb, lc, op, hi, lo, cl, vol⟩ := b
  constructor
  · rfl
  · intro b1 hle hupd
    have h : ¬ tsEvent < tsl := Nat.not_lt.mpr hle
    simp only [BarBuilder.update] at hupd
    rw [if_neg h] at hupd
    cases op with
    | none =>
      cases hupd
      rfl
    | some p =>
      cases hi with
      | none => simp at hupd
      | some hv =>
        cases lo with
        | none => simp at hupd
        | some lv =>
          cases hupd
          rfl

/-- Concrete state for the claim C10 witness: the result of a direct
BarBuilder::update with zero size and ts_event 3 on a fresh builder. -/
def sampleZeroUpdated : BarBuilder :=
  { sizePrecision := 0
    initialized := true
    tsLast := 3
    count := 1
    hasPartialBar := false
    lastClose := none
    open_ := some { raw := 5 }
    high := some { raw := 5 }
    low := some { raw := 5 }
    close := some { raw := 5 }
    volume := { raw := 0, precision := 0 } }

/-- Witness for claim C10 at a concrete input. -/
theorem volumeAggregator_zero_size_noop_witness :
    VolumeBarAggregator.update 1 (BarBuilder.new 0) { raw := 5 }
      { raw := 0, precision := 0 } 3 = some (BarBuilder.new 0, []) ∧
    sampleZeroUpdated.count = (BarBuilder.new 0).count + 1 :=
  ⟨(volumeAggregator_zero_size_noop 1 (BarBuilder.new 0) { raw := 5 } 0 3).1,
   (volumeAggregator_zero_size_noop 1 (BarBuilder.new 0) { raw := 5 } 0 3).2
     sampleZeroUpdated (by decide) (by decide)⟩

/-- The builder obtained from one accepted update (price raw 100, size raw 7,
ts_event 1) on a fresh builder of size precision 0. -/
def sampleUpdated : BarBuilder :=
  { sizePrecision := 0
    initialized := true
    tsLast := 1
    count := 1
    hasPartialBar := false
    lastClose := none
    open_ := some { raw := 100 }
    high := some { raw := 100 }
    low := some { raw := 100 }
    close := some { raw := 100 }
    volume := { raw := 7, precision := 0 } }

/-- The bar emitted by build_now from sampleUpdated. -/
def sampleBar : Bar :=
  { open_ := { raw := 100 }
    high := { raw := 100 }
    low := { raw := 100 }
    close := { raw := 100 }
    volume := { raw := 7, precision := 0 }
    tsEvent := 1
    tsInit := 1 }

/-- The builder left behind by build_now on sampleUpdated. -/
def sampleAfterBuild : BarBuilder :=
  { sizePrecision := 0
    initialized := true
    tsLast := 1
    count := 0
    hasPartialBar := false
    lastClose := some { raw := 100 }
    open_ := none
    high := none
    low := none
    close := some { raw := 100 }
    volume := { raw := 0, precision := 0 }
    }

/-- Claim C3 counterexample: build does NOT leave all four prices unset — at
a concrete state (one accepted update, then build_now) the builder's close
still holds the emitted bar's close price rather than being reset to unset,
so the claim that open, high, low AND close are all reset is false on the
code. -/
theorem barBuilder_build_close_not_cleared :
    (BarBuilder.new 0).update { raw := 100 } { raw := 7, precision := 0 } 1
        = some sampleUpdated ∧
    sampleUpdated.buildNow = some (sampleBar, sampleAfterBuild) ∧
    sampleAfterBuild.close ≠ none := by
  refine ⟨rfl, rfl, ?_⟩
  decide

/-- Claim C3 (amended): after any successful build, open, high and low are
unset, volume is zero at the builder's size precision, count is 0,
last_close holds the emitted bar's close, and ts_last and initialized are
unchanged; close is NOT cleared — it also retains the emitted bar's close. -/
theorem barBuilder_build_reset_frame (b : BarBuilder) (tsEvent tsInit : Nat)
    (bar : Bar) (b2 : BarBuilder)
    (h : b.build tsEvent tsInit = some (bar, b2)) :
    b2.open_ = none ∧ b2.high = none ∧ b2.low = none ∧
    b2.volume = Quantity.zero b.sizePrecision ∧ b2.count = 0 ∧
    b2.lastClose = some bar.close ∧ b2.close = some bar.close ∧
    b2.tsLast = b.tsLast ∧ b2.initialized = b.initialized := by
  obtain ⟨sp, init, tsl, cnt, hpb, lc, op, hi, lo, cl, vol⟩ := b
  unfold BarBuilder.build at h
  cases op with
  | none =>
    cases lc with
    | none => simp at h
    | some c =>
      simp only [Option.isNone_none, if_true, Option.some_inj, Prod.mk.injEq] at h
      obtain ⟨hbar, hb2⟩ := h
      subst hbar
      subst hb2
      simp [BarBuilder.reset]
  | some o =>
    cases hi with
    | none => simp at h
    | some hv =>
      cases lo with
      | none => simp at h
      | some lv =>
        cases cl with
        | none => simp at h
        | some cv =>
          injection h with h1
          injection h1 with hbar hb2
          subst hbar
          subst hb2
          simp [BarBuilder.reset]

/-- Witness for claim C3 (amended) at the concrete post-update state. -/
theorem barBuilder_build_reset_frame_witness :
    sampleAfterBuild.open_ = none ∧ sampleAfterBuild.high = none ∧
    sampleAfterBuild.low = none ∧
    sampleAfterBuild.volume = Quantity.zero sampleUpdated.sizePrecision ∧
    sampleAfterBuild.count = 0 ∧
    sampleAfterBuild.lastClose = some sampleBar.close ∧
    sampleAfterBuild.close = some sampleBar.close ∧
    sampleAfterBuild.tsLast = sampleUpdated.tsLast ∧
    sampleAfterBuild.initialized = sampleUpdated.initialized :=
  barBuilder_build_reset_frame sampleUpdated 1 1 sampleBar sampleAfterBuild
    (by decide)

/-- Claim C7: on a price-coherent builder state, build succeeds exactly when
open is set or last_close is set — the remaining case (neither any accepted
update nor a previously built bar) is the fatal programmer error — and when
open is unset with last_close set, the emitted bar carries last_close as all
four of open, high, low and close. -/
theorem barBuilder_build_fallback_and_fatal (b : BarBuilder)
    (tsEvent tsInit : Nat) (hwf : b.wf) :
    ((b.build tsEvent tsInit).isSome = true ↔
      (b.open_.isSome = true ∨ b.lastClose.isSome = true)) ∧
    (∀ c bar b2, b.open_ = none → b.lastClose = some c →
      b.build tsEvent tsInit = some (bar, b2) →
      bar.open_ = c ∧ bar.high = c ∧ bar.low = c ∧ bar.close = c) := by
  obtain ⟨sp, init, tsl, cnt, hpb, lc, op, hi, lo, cl, vol⟩ := b
  constructor
  · constructor
    · intro hs
      cases op with
      | some o => exact Or.inl rfl
      | none =>
        cases lc with
        | some c => exact Or.inr rfl
        | none => simp [BarBuilder.build] at hs
    · intro hsafe
      obtain ⟨bar, b2, heq, _⟩ :=
        BarBuilder.build_some ⟨sp, init, tsl, cnt, hpb, lc, op, hi, lo, cl, vol⟩
          tsEvent tsInit hsafe hwf
      rw [heq]
      rfl
  · intro c bar b2 hop hlc heq
    have hop2 : op = none := hop
    have hlc2 : lc = some c := hlc
    subst hop2
    subst hlc2
    unfold BarBuilder.build at heq
    simp only [Option.isNone_none, if_true, Option.some_inj, Prod.mk.injEq] at heq
    obtain ⟨hbar, hb2⟩ := heq
    subst hbar
    exact ⟨rfl, rfl, rfl, rfl⟩

/-- Concrete state for the claim C7 witness: a fresh builder that has a
previous close but no open. -/
def sampleSeeded : BarBuilder :=
  { BarBuilder.new 0 with lastClose := some { raw := 42 } }

/-- Witness for claim C7: build succeeds on the concrete empty-bar fallback
state. -/
theorem barBuilder_build_fallback_and_fatal_witness :
    (sampleSeeded.build 5 6).isSome = true :=
  (barBuilder_build_fallback_and_fatal sampleSeeded 5 6 (by decide)).1.mpr
    (Or.inr (by decide))

theorem TickBarAggregator.run_inv (step : Nat) :
    ∀ (updates : List (Price × Quantity × Nat)) (b : BarBuilder),
      b.wf → b.count < step →
      ∃ b2 bars accepted,
        TickBarAggregator.run step b updates = some (b2, bars, accepted) ∧
        b.count + accepted = step * bars.length + b2.count ∧
        b2.count < step ∧ b2.wf ∧
        (∀ bar ∈ bars, bar.tsEvent = bar.tsInit) := by
  intro updates
  induction updates with
  | nil =>
    intro b hwf hcount
    exact ⟨b, [], 0, rfl, by simp, hcount, hwf, by simp⟩
  | cons u rest ih =>
    obtain ⟨price, size, tsEvent⟩ := u
    intro b hwf hcount
    by_cases hlt : tsEvent < b.tsLast
    · have hupd := BarBuilder.update_dropped b price size tsEvent hlt
      have hnoemit : TickBarAggregator.update step b price size tsEvent
          = some (b, []) := by
        unfold TickBarAggregator.update
        have hnreach : ¬ step ≤ b.count := Nat.not_le.mpr hcount
        simp [hupd, hnreach]
      obtain ⟨b2, bars, accepted, hrun, hacc, hc2, hwf2, hts⟩ := ih b hwf hcount
      refine ⟨b2, bars, accepted, ?_, hacc, hc2, hwf2, hts⟩
      unfold TickBarAggregator.run
      have hnle : ¬ b.tsLast ≤ tsEvent := Nat.not_le.mpr hlt
      simp [hnoemit, hrun, hnle]
    · obtain ⟨b1, hupd, hop, hhi, hlo, hcl, hcnt, hts1, hvol, hsp, hlc⟩ :=
        BarBuilder.update_accepted b price size tsEvent hlt hwf
      have hwf1 : b1.wf := fun _ => ⟨hhi, hlo, by rw [hcl]; rfl⟩
      have hle : b.tsLast ≤ tsEvent := Nat.le_of_not_lt hlt
      by_cases hreach : step ≤ b1.count
      · obtain ⟨bar, b2, hbuild, hbo, hbh, hbl, hbc, hblc, hbv, hbcnt, hbts,
          hbinit, hbsp, hbte, hbti, hbvol⟩ :=
          BarBuilder.build_some b1 b1.tsLast b1.tsLast (Or.inl hop) hwf1
        have hwf2 : b2.wf := BarBuilder.wf_of_open_none b2 hbo
        obtain ⟨b3, bars3, acc3, hrun3, hacc3, hc3, hwf3, hts3⟩ :=
          ih b2 hwf2 (by omega)
        refine ⟨b3, bar :: bars3, 1 + acc3, ?_, ?_, hc3, hwf3, ?_⟩
        · unfold TickBarAggregator.run TickBarAggregator.update
          unfold BarBuilder.buildNow
          simp [hupd, hreach, hbuild, hrun3, hle]
        · rw [List.length_cons, Nat.mul_succ]
          omega
        · intro bar2 hmem
          rcases List.mem_cons.mp hmem with h | h
          · rw [h, hbte, hbti]
          · exact hts3 bar2 h
      · obtain ⟨b3, bars3, acc3, hrun3, hacc3, hc3, hwf3, hts3⟩ :=
          ih b1 hwf1 (Nat.lt_of_not_le hreach)
        refine ⟨b3, bars3, 1 + acc3, ?_, by omega, hc3, hwf3, hts3⟩
        unfold TickBarAggregator.run TickBarAggregator.update
        simp [hupd, hreach, hrun3, hle]

/-- Claim C6: from a fresh builder, a TickBarAggregator with step k emits
exactly ⌊accepted updates / k⌋ bars over every finite update stream; each
bar is emitted during the update call that brings the builder's count to k
and is dated ts_last (its ts_event equals its ts_init, both being the
builder's ts_last at emission time). -/
theorem tickAggregator_bar_count (step sizePrecision : Nat) (hstep : 1 ≤ step)
    (updates : List (Price × Quantity × Nat)) :
    ∃ b bars accepted,
      TickBarAggregator.run step (BarBuilder.new sizePrecision) updates
        = some (b, bars, accepted) ∧
      bars.length = accepted / step ∧ b.count = accepted % step ∧
      (∀ bar ∈ bars, bar.tsEvent = bar.tsInit) := by
  obtain ⟨b2, bars, accepted, hrun, hacc, hc2, _, hts⟩ :=
    TickBarAggregator.run_inv step updates (BarBuilder.new sizePrecision)
      (BarBuilder.new_wf sizePrecision) (by simp [BarBuilder.new]; omega)
  have hacc2 : accepted = step * bars.length + b2.count := by
    simpa [BarBuilder.new] using hacc
  have hpos : 0 < step := by omega
  refine ⟨b2, bars, accepted, hrun, ?_, ?_, hts⟩
  · rw [hacc2, Nat.mul_add_div hpos, Nat.div_eq_of_lt hc2, Nat.add_zero]
  · rw [hacc2, Nat.mul_add_mod, Nat.mod_eq_of_lt hc2]

/-- Witness for claim C6: three accepted updates with step 2 emit one bar. -/
theorem tickAggregator_bar_count_witness :
    ∃ b bars accepted,
      TickBarAggregator.run 2 (BarBuilder.new 0)
          [({ raw := 1 }, { raw := 1, precision := 0 }, 0),
           ({ raw := 2 }, { raw := 1, precision := 0 }, 1),
           ({ raw := 3 }, { raw := 1, precision := 0 }, 2)]
        = some (b, bars, accepted) ∧
      bars.length = accepted / 2 ∧ b.count = accepted % 2 ∧
      (∀ bar ∈ bars, bar.tsEvent = bar.tsInit) :=
  tickAggregator_bar_count 2 0 (by decide)
    [({ raw := 1 }, { raw := 1, precision := 0 }, 0),
     ({ raw := 2 }, { raw := 1, precision := 0 }, 1),
     ({ raw := 3 }, { raw := 1, precision := 0 }, 2)]

/-- Claim C8: the timer callback build_bar emits a bar exactly when the
builder is initialized and (build_with_no_updates is set or count > 0); when
the builder is not initialized it only sets build_on_next_tick and copies
next_close_ns into stored_close_ns, leaves the builder untouched and emits
nothing. -/
theorem timeAggregator_build_bar_gate (a : TimeBarAggregator)
    (eventTs clockNextTimeNs : Nat) (hwf : a.builder.wf)
    (hsafe : a.builder.initialized = true →
      (a.builder.open_.isSome = true ∨ a.builder.lastClose.isSome = true)) :
    ∃ a2 emitted, a.buildBar eventTs clockNextTimeNs = some (a2, emitted) ∧
      (emitted.isSome = true ↔
        (a.builder.initialized = true ∧
          (a.buildWithNoUpdates = true ∨ 0 < a.builder.count))) ∧
      (a.builder.initialized = false →
        (a2 = { a with buildOnNextTick := true, storedCloseNs := a.nextCloseNs }
          ∧ emitted = none)) := by
  by_cases hinit : a.builder.initialized = false
  · refine ⟨_, none, ?_, ?_, fun _ => ⟨rfl, rfl⟩⟩
    · unfold TimeBarAggregator.buildBar
      rw [if_pos hinit]
    · simp [hinit]
  · have hinit2 : a.builder.initialized = true := by
      cases h : a.builder.initialized
      · exact absurd h hinit
      · rfl
    by_cases hskip : a.buildWithNoUpdates = false ∧ a.builder.count = 0
    · refine ⟨a, none, ?_, ?_, ?_⟩
      · unfold TimeBarAggregator.buildBar
        rw [if_neg hinit, if_pos hskip]
      · simp [hskip.1, hskip.2]
      · intro h
        rw [hinit2] at h
        cases h
    · have hgate : a.buildWithNoUpdates = true ∨ 0 < a.builder.count := by
        rcases Bool.eq_false_or_eq_true a.buildWithNoUpdates with h | h
        · exact Or.inl h
        · rcases Nat.eq_zero_or_pos a.builder.count with h0 | h0
          · exact absurd ⟨h, h0⟩ hskip
          · exact Or.inr h0
      obtain ⟨bar, b2, hbuild, _⟩ :=
        BarBuilder.build_some a.builder
          (if a.isLeftOpen then
            (if a.timestampOnClose then eventTs else a.storedOpenNs)
          else a.storedOpenNs)
          eventTs (hsafe hinit2) hwf
      refine ⟨{ a with
                  builder := b2
                  storedOpenNs := eventTs
                  nextCloseNs := clockNextTimeNs },
              some bar, ?_, ?_, ?_⟩
      · unfold TimeBarAggregator.buildBar
        simp [hinit, hskip, hbuild]
      · exact ⟨fun _ => ⟨hinit2, hgate⟩, fun _ => rfl⟩
      · intro h
        rw [hinit2] at h
        cases h

/-- Concrete state for the claim C8 witness: an uninitialized time
aggregator. -/
def sampleTimeAgg : TimeBarAggregator :=
  { builder := BarBuilder.new 0
    buildWithNoUpdates := true
    timestampOnClose := true
    isLeftOpen := false
    buildOnNextTick := false
    storedOpenNs := 0
    storedCloseNs := 0
    nextCloseNs := 77 }

/-- Witness for claim C8 at a concrete uninitialized aggregator. -/
theorem timeAggregator_build_bar_gate_witness :
    ∃ a2 emitted, sampleTimeAgg.buildBar 10 20 = some (a2, emitted) ∧
      (emitted.isSome = true ↔
        (sampleTimeAgg.builder.initialized = true ∧
          (sampleTimeAgg.buildWithNoUpdates = true ∨
            0 < sampleTimeAgg.builder.count))) ∧
      (sampleTimeAgg.builder.initialized = false →
        (a2 = { sampleTimeAgg with
                  buildOnNextTick := true
                  storedCloseNs := sampleTimeAgg.nextCloseNs }
          ∧ emitted = none)) :=
  timeAggregator_build_bar_gate sampleTimeAgg 10 20 (by decide) (by decide)

theorem VolumeBarAggregator.updateLoop_total (rawStep : Nat) (price : Price)
    (sizePrecision tsEvent : Nat) :
    ∀ fuel rawSizeUpdate b emitted, b.volume.raw < rawStep → b.wf →
      (b.tsLast ≤ tsEvent ∨ b.open_.isSome = true ∨ b.lastClose.isSome = true) →
      rawSizeUpdate < fuel →
      (VolumeBarAggregator.updateLoop rawStep price sizePrecision tsEvent fuel
        rawSizeUpdate b emitted).isSome = true := by
  intro fuel
  induction fuel with
  | zero =>
    intro r b emitted _ _ _ hf
    exact absurd hf (Nat.not_lt_zero r)
  | succ fuel ih =>
    intro r b emitted hvol hwf hsafe hf
    unfold VolumeBarAggregator.updateLoop
    by_cases hr : r = 0
    · simp [hr]
    · rw [if_neg hr]
      by_cases hfit : b.volume.raw + r < rawStep
      · rw [if_pos hfit]
        by_cases hlt : tsEvent < b.tsLast
        · have hupd := BarBuilder.update_dropped b price
            { raw := r, precision := sizePrecision } tsEvent hlt
          simp [hupd]
        · obtain ⟨b1, hupd, _⟩ := BarBuilder.update_accepted b price
            { raw := r, precision := sizePrecision } tsEvent hlt hwf
          simp [hupd]
      · rw [if_neg hfit]
        have hdiff : 1 ≤ rawStep - b.volume.raw := by omega
        by_cases hlt : tsEvent < b.tsLast
        · have hupd := BarBuilder.update_dropped b price
            { raw := r, precision := sizePrecision } tsEvent hlt
          have hsafe2 : b.open_.isSome = true ∨ b.lastClose.isSome = true := by
            rcases hsafe with h | h | h
            · omega
            · exact Or.inl h
            · exact Or.inr h
          obtain ⟨bar, b2, hbuild, hbo, hbh, hbl, hbc, hblc, hbv, hbcnt, hbts,
            hbinit, hbsp, _, _, _⟩ :=
            BarBuilder.build_some b b.tsLast b.tsLast hsafe2 hwf
          have hbn : b.buildNow = some (bar, b2) := hbuild
          have hb2vol : b2.volume.raw = 0 := by rw [hbv]; rfl
          have hrec := ih (r - (rawStep - b.volume.raw)) b2 (emitted ++ [bar])
            (by omega) (BarBuilder.wf_of_open_none b2 hbo)
            (Or.inr (Or.inr (by rw [hblc]; rfl))) (by omega)
          simp [hupd, hbn, hrec]
        · obtain ⟨b1, hupd, hop, hhi, hlo, hcl, hcnt, hts1, hvol1, hsp, hlc⟩ :=
            BarBuilder.update_accepted b price
              { raw := r, precision := sizePrecision } tsEvent hlt hwf
          have hwf1 : b1.wf := fun _ => ⟨hhi, hlo, by rw [hcl]; rfl⟩
          obtain ⟨bar, b2, hbuild, hbo, hbh, hbl, hbc, hblc, hbv, hbcnt, hbts,
            hbinit, hbsp, _, _, _⟩ :=
            BarBuilder.build_some b1 b1.tsLast b1.tsLast (Or.inl hop) hwf1
          have hbn : b1.buildNow = some (bar, b2) := hbuild
          have hb2vol : b2.volume.raw = 0 := by rw [hbv]; rfl
          have hrec := ih (r - (rawStep - b.volume.raw)) b2 (emitted ++ [bar])
            (by omega) (BarBuilder.wf_of_open_none b2 hbo)
            (Or.inr (Or.inr (by rw [hblc]; rfl))) (by omega)
          simp [hupd, hbn, hrec]

/-- Claim C9: the volume split loop terminates on every single update call
from a reachable prior state (builder volume below the raw step): every
completing iteration strictly decreases the raw residual by at least the
positive completion slice, so the loop finishes within size.raw + 1
iterations and update returns. -/
theorem volumeAggregator_update_terminates (step : Nat) (b : BarBuilder)
    (price : Price) (size : Quantity) (tsEvent : Nat)
    (hvol : b.volume.raw < step * FIXED_SCALAR) (hwf : b.wf)
    (hsafe : b.tsLast ≤ tsEvent ∨ b.open_.isSome = true ∨
      b.lastClose.isSome = true) :
    (VolumeBarAggregator.update step b price size tsEvent).isSome = true := by
  unfold VolumeBarAggregator.update
  exact VolumeBarAggregator.updateLoop_total (step * FIXED_SCALAR) price
    size.precision tsEvent
    (size.raw + 1) size.raw b [] hvol hwf hsafe (Nat.lt_succ_self _)

/-- Witness for claim C9 at a concrete input. -/
theorem volumeAggregator_update_terminates_witness :
    (VolumeBarAggregator.update 1 (BarBuilder.new 0) { raw := 5 }
      { raw := 3, precision := 0 } 7).isSome = true :=
  volumeAggregator_update_terminates 1 (BarBuilder.new 0) { raw := 5 }
    { raw := 3, precision := 0 } 7 (by decide) (by decide)
    (Or.inl (by decide))

/-- Claim C1 (evaluation at the failing input): on a fresh
VolumeBarAggregator with step 10, a single update of size 25 (raw
25·FIXED_SCALAR) does NOT emit two bars of volume 10 — the loop passes the
full remaining residual (raw_size_update) to the builder before each build,
not the completion slice raw_size_diff it computes, so the emitted bars carry
volumes 25 and 15; only the residual builder volume is the expected 5. -/
theorem volumeAggregator_split_failing_input :
    ∃ b bars,
      VolumeBarAggregator.update 10 (BarBuilder.new 9) { raw := 100 }
        { raw := 25 * FIXED_SCALAR, precision := 9 } 0 = some (b, bars) ∧
      bars.map (fun bar => bar.volume.raw)
        = [25 * FIXED_SCALAR, 15 * FIXED_SCALAR] ∧
      b.volume.raw = 5 * FIXED_SCALAR ∧
      ¬ bars.map (fun bar => bar.volume.raw)
        = [10 * FIXED_SCALAR, 10 * FIXED_SCALAR] := by
  refine ⟨_, _, rfl, ?_, ?_, ?_⟩ <;> decide

/-- Claim C2 (evaluation at the failing input): volume conservation fails on
the code — for the single accepted update of raw size 25·FIXED_SCALAR with
step 10 the emitted bar volumes plus the residual sum to 45·FIXED_SCALAR,
not the accepted 25·FIXED_SCALAR, because each completing iteration applies
the full remaining residual to the builder before building. -/
theorem volumeAggregator_conservation_violated :
    ∃ b bars,
      VolumeBarAggregator.update 10 (BarBuilder.new 9) { raw := 100 }
        { raw := 25 * FIXED_SCALAR, precision := 9 } 0 = some (b, bars) ∧
      (bars.map (fun bar => bar.volume.raw)).sum + b.volume.raw
        = 45 * FIXED_SCALAR ∧
      (bars.map (fun bar => bar.volume.raw)).sum + b.volume.raw
        ≠ 25 * FIXED_SCALAR := by
  refine ⟨_, _, rfl, ?_, ?_⟩ <;> decide
